import Mathlib

/-!
Verification of the multi-source paginated report aggregation engine
(`reportFetcher.js`, `server.js`, `script.js`) against its design
specification.

The JavaScript code is shallowly embedded: pure computations become Lean
functions, the mutable loops (`revealNextBatch`, the pagination loop inside
`fetchReport`, the retry loop) become explicit recursive state passing, and
the asynchronous fan-out (`Promise.all`) is modelled by passing each
source's settled outcome (`Except`) as an explicit argument.  JavaScript
timestamps are `Int` epoch values; truthiness of optional fields is modelled
by `Option` with explicit zero/empty checks matching the source.
-/

namespace SPC

/-! ## Client-side records and time extraction (script.js) -/

/-- A normalized client-side record as produced by `normalizeRow`
(script.js).  Only the fields consulted by the merge/reveal engine are
carried: `callId` is the record's `'Call ID'` column (`""` = missing, which
is falsy in JS), and `calledTime` is the numeric value of the
`'Called Time'` column (`none` = missing or unparseable, which `toEpoch`
maps to `0`; for string dates the embedded value is the `Date.parse`
result). -/
structure NRec where
  callId : String
  calledTime : Option Int
deriving DecidableEq, Repr

/-- `toEpoch` (script.js lines 931-940): derive an epoch in milliseconds
from a record's `'Called Time'`; a missing/unparseable value yields `0`,
a numeric value below `1e11` is interpreted as epoch seconds and scaled
by 1000. -/
def toEpoch (r : NRec) : Int :=
  match r.calledTime with
  | none => 0
  | some v => if v < 100000000000 then v * 1000 else v

/-- The descending-by-event-time order used by every
`.sort((a, b) => toEpoch(b) - toEpoch(a))` call in script.js:
`a` may precede `b` exactly when `toEpoch b ≤ toEpoch a`. -/
def descByEpoch (a b : NRec) : Prop := toEpoch b ≤ toEpoch a

instance : DecidableRel descByEpoch := fun _ _ => Int.decLe _ _

instance : IsTotal NRec descByEpoch := ⟨fun x y => Int.le_total (toEpoch y) (toEpoch x)⟩

instance : IsTrans NRec descByEpoch := ⟨fun _ _ _ h1 h2 => Int.le_trans h2 h1⟩

/-- A buffer/revealed-list sort by descending event time
(script.js `.sort((a, b) => toEpoch(b) - toEpoch(a))`; JS `Array.sort` is
stable, as is `insertionSort`, so the two agree). -/
def sortDescRecs (l : List NRec) : List NRec := List.insertionSort descByEpoch l

/-- Worker for `dedupRecords` (script.js lines 943-952): walk the list
keeping the first occurrence of each non-empty `'Call ID'`; a record with a
missing (empty) id receives a fresh `Symbol()` key in the source and is
therefore always kept. -/
def dedupGo (seen : List String) : List NRec → List NRec
  | [] => []
  | r :: rs =>
    if r.callId = "" then r :: dedupGo seen rs
    else if seen.contains r.callId then dedupGo seen rs
    else r :: dedupGo (r.callId :: seen) rs

/-- `dedupRecords` (script.js lines 943-952): deduplicate records by unique
`'Call ID'`, keeping the first occurrence (insertion order of the `Map`). -/
def dedupRecords (l : List NRec) : List NRec := dedupGo [] l

/-! ## The four report sources and their buffers -/

/-- The four report sources: inbound queue (`in`), outbound queue (`out`),
campaign activity (`camp`) and raw CDRs (`cdr`). -/
inductive Source where
  | inb
  | out
  | camp
  | cdr
deriving DecidableEq, Repr

/-- The iteration order `['in', 'out', 'camp', 'cdr']` used by
`revealNextBatch` and `loadNextChunks` (script.js). -/
def sourceOrder : List Source := [.inb, .out, .camp, .cdr]

/-- The per-source read-ahead buffers (script.js line 928:
`const buffers = { in: [], out: [], camp: [], cdr: [] }`). -/
structure Buffers where
  inb : List NRec
  out : List NRec
  camp : List NRec
  cdr : List NRec
deriving DecidableEq, Repr

def Buffers.get (b : Buffers) : Source → List NRec
  | .inb => b.inb
  | .out => b.out
  | .camp => b.camp
  | .cdr => b.cdr

def Buffers.set (b : Buffers) : Source → List NRec → Buffers
  | .inb, l => { b with inb := l }
  | .out, l => { b with out := l }
  | .camp, l => { b with camp := l }
  | .cdr, l => { b with cdr := l }

/-- Total number of buffered records, used as fuel for the reveal loop
(each iteration pops exactly one buffered record). -/
def Buffers.totalLen (b : Buffers) : Nat :=
  b.inb.length + b.out.length + b.camp.length + b.cdr.length

/-- One step of the newest-head selection inside `revealNextBatch`
(script.js lines 961-968, the arrow function passed to `forEach`): an empty
buffer is skipped, otherwise the candidate head replaces the current pick
exactly when there is no pick yet or its `toEpoch` is strictly larger. -/
def pickStep (b : Buffers) (acc : Option Source) (k : Source) : Option Source :=
  match Buffers.get b k with
  | [] => acc
  | c :: _ =>
    match acc with
    | none => some k
    | some j =>
      match Buffers.get b j with
      | [] => some k
      | p :: _ => if toEpoch p < toEpoch c then some k else acc

/-- The newest-head selection inside `revealNextBatch` (script.js lines
958-968): iterate the sources in order, remembering the buffer whose head
has the strictly largest `toEpoch` (ties keep the earlier source). -/
def pickNewest (b : Buffers) : Option Source :=
  sourceOrder.foldl (pickStep b) none

/-- `PAGE_SIZE` (script.js line 920). -/
def PAGE_SIZE : Nat := 500

/-- The `while` loop of `revealNextBatch` (script.js lines 957-975): while
fewer than `psize` records have been added since entry (`startLen`), pop the
newest buffered record, append it to the revealed list and re-deduplicate.
`fuel` bounds the iteration count; `Buffers.totalLen` suffices because every
iteration removes one buffered record. -/
def revealLoop (psize startLen : Nat) (fuel : Nat) (b : Buffers)
    (last : List NRec) : Buffers × List NRec :=
  match fuel with
  | 0 => (b, last)
  | fuel + 1 =>
    if last.length - startLen < psize then
      match pickNewest b with
      | none => (b, last)
      | some k =>
        match Buffers.get b k with
        | [] => (b, last)
        | r :: rest =>
          revealLoop psize startLen fuel (Buffers.set b k rest)
            (dedupRecords (last ++ [r]))
    else (b, last)

/-- `revealNextBatch` (script.js lines 955-979): pull up to `PAGE_SIZE`
newest records across the four buffers into the revealed list
(`lastRecords`), deduplicating on the fly, then re-sort the revealed list
descending by event time. -/
def revealNextBatch (b : Buffers) (last : List NRec) : Buffers × List NRec :=
  let res := revealLoop PAGE_SIZE last.length (Buffers.totalLen b) b last
  (res.1, sortDescRecs res.2)

/-! ## Per-source cursors and the batch-load round (script.js) -/

/-- The per-source continuation cursors (script.js line 924:
`let nextTokens = { in: null, out: null, camp: null, cdr: null }`);
`none` embeds JavaScript `null` ("exhausted"). -/
structure Tokens where
  inb : Option String
  out : Option String
  camp : Option String
  cdr : Option String
deriving DecidableEq, Repr

def Tokens.get (t : Tokens) : Source → Option String
  | .inb => t.inb
  | .out => t.out
  | .camp => t.camp
  | .cdr => t.cdr

def Tokens.set (t : Tokens) : Source → Option String → Tokens
  | .inb, v => { t with inb := v }
  | .out, v => { t with out := v }
  | .camp, v => { t with camp := v }
  | .cdr, v => { t with cdr := v }

/-- `Object.values(nextTokens).every(v => v === null)` (script.js line
1010). -/
def Tokens.allNull (t : Tokens) : Bool :=
  t.inb.isNone && t.out.isNone && t.camp.isNone && t.cdr.isNone

/-- The `reduce` computing the oldest `toEpoch` among currently revealed
records (script.js lines 1013-1016), with `null` as initial accumulator. -/
def oldestEpoch (l : List NRec) : Option Int :=
  l.foldl
    (fun acc r =>
      let ts := toEpoch r
      match acc with
      | none => some ts
      | some m => if ts < m then some ts else some m)
    none

/-- One HTTP request issued by a batch-load round: the target source, the
`startKey` continuation cursor sent (`none` = first-page, cursor-less
request) and the overridden window end in epoch milliseconds (`none` = the
session's original window). -/
structure SourceReq where
  src : Source
  startKey : Option String
  endOverride : Option Int
deriving DecidableEq, Repr

/-- The cursor-continuation requests issued by `fetchChunk` (script.js
lines 984-1002): one request per source whose token is non-null, carrying
that token as `startKey` (the source spreads `...(nxt && { startKey: nxt })`,
so a truthy token is attached and an empty-string token is omitted). -/
def chunkRequests (t : Tokens) : List SourceReq :=
  sourceOrder.filterMap
    (fun k =>
      match Tokens.get t k with
      | none => none
      | some cur => some ⟨k, if cur = "" then none else some cur, none⟩)

/-- The token state after the chunk fetches settle: each fetched source's
token is replaced by its response's `next` (script.js line 991); sources
whose fetch rejected keep their old token (the `.then` handler never runs),
and sources with a null token were not fetched at all. `chunkResults`
carries each source's settled outcome: the page `(rows, next)` on success
or the error message on rejection. -/
def postTokens (t : Tokens) (chunkNext : Source → Except String (Option String)) :
    Tokens :=
  sourceOrder.foldl
    (fun acc k =>
      match Tokens.get t k with
      | none => acc
      | some _ =>
        match chunkNext k with
        | .ok nxt => Tokens.set acc k nxt
        | .error _ => acc)
    t

/-- The time-window fallback end (script.js lines 1013-1021): `none` when
the revealed list is empty or its oldest epoch is `0` (both falsy in
`if (oldest)`); otherwise the oldest value, scaled to milliseconds when it
looks like epoch seconds, minus 1000 ms. -/
def fallbackEnd (last : List NRec) : Option Int :=
  match oldestEpoch last with
  | none => none
  | some o =>
    if o = 0 then none
    else some ((if o < 1000000000000 then o * 1000 else o) - 1000)

/-- The full request list of one `loadNextChunks` round (script.js lines
981-1039): the per-source cursor continuations, followed — exactly when
every post-fetch token is null and the fallback end is defined — by one
fresh, cursor-less request per source with the rewritten window end. -/
def roundRequests (t : Tokens) (chunkNext : Source → Except String (Option String))
    (last : List NRec) : List SourceReq :=
  let t1 := postTokens t chunkNext
  let fb : List SourceReq :=
    if t1.allNull then
      match fallbackEnd last with
      | none => []
      | some e =>
        [⟨.inb, none, some e⟩, ⟨.out, none, some e⟩,
         ⟨.camp, none, some e⟩, ⟨.cdr, none, some e⟩]
    else []
  chunkRequests t ++ fb

/-! ## The engine state and the effect of one `loadNextChunks` call -/

/-- One page returned by a report endpoint to the browser: the normalized
rows destined for a buffer plus the `next` continuation token. -/
structure FetchPage where
  rows : List NRec
  next : Option String
deriving DecidableEq, Repr

/-- The module-level mutable state of the merge engine (script.js lines
910-928): the per-source cursors, the per-source buffers and the revealed
list `lastRecords`. -/
structure EngineState where
  tokens : Tokens
  buffers : Buffers
  lastRecords : List NRec
deriving DecidableEq, Repr

/-- The sources fetched by a round: those whose token is non-null
(script.js line 986: `if (nxt === null) return`). -/
def fetchedSources (t : Tokens) : List Source :=
  sourceOrder.filter (fun k => (Tokens.get t k).isSome)

/-- The effect of one `loadNextChunks()` call (script.js lines 981-1062)
on the engine state, given each source's settled chunk outcome and, for the
fallback round, each source's settled fallback outcome.  Returns the state
after all mutations together with `some errorMessage` when the call threw.

`Promise.all` semantics are modelled faithfully by the helpers below:
every fulfilled chunk fetch's `.then` handler runs (extending that source's
buffer, sorting it descending, and updating its token) even when another
chunk fetch rejects, but a rejection makes `await Promise.all(promises)`
throw, so the fallback logic and `revealNextBatch()` never run and
`lastRecords` is untouched.  In the fallback round the four responses are
consumed only after the `await`, so a rejection there leaves all buffers as
they were.

The cumulative effect of the fulfilled chunk fetches' `.then` handlers
(script.js lines 989-995): each fulfilled source's buffer is extended with
the normalized rows and re-sorted descending, and its token is replaced by
the response's `next`; a rejected source's handler never runs. -/
def applyChunkResults (chunkResults : Source → Except String FetchPage)
    (fetched : List Source) (st : EngineState) : EngineState :=
  fetched.foldl
    (fun acc k =>
      match chunkResults k with
      | .ok page =>
        { acc with
          tokens := Tokens.set acc.tokens k page.next,
          buffers := Buffers.set acc.buffers k
            (sortDescRecs (Buffers.get acc.buffers k ++ page.rows)) }
      | .error _ => acc)
    st

/-- The rejection `await Promise.all(promises)` surfaces, if any: the first
rejected source in order (script.js line 1005). -/
def firstError {β : Type} (results : Source → Except String β)
    (fetched : List Source) : Option String :=
  fetched.findSome?
    (fun k => match results k with | .error e => some e | .ok _ => none)

/-- The buffer pushes of the fallback round (script.js lines 1030-1037):
each source's returned rows, when non-empty, extend its buffer which is then
re-sorted descending; tokens are not touched. -/
def applyFallbackResults (fbResults : Source → Except String (List NRec))
    (st : EngineState) : EngineState :=
  sourceOrder.foldl
    (fun acc k =>
      match fbResults k with
      | .ok rows =>
        if rows.isEmpty then acc
        else
          { acc with
            buffers := Buffers.set acc.buffers k
              (sortDescRecs (Buffers.get acc.buffers k ++ rows)) }
      | .error _ => acc)
    st

def loadNextChunksRun (st : EngineState)
    (chunkResults : Source → Except String FetchPage)
    (fbResults : Source → Except String (List NRec)) :
    EngineState × Option String :=
  let fetched := fetchedSources st.tokens
  let st1 := applyChunkResults chunkResults fetched st
  match firstError chunkResults fetched with
  | some e => (st1, some e)
  | none =>
    let afterFallback : EngineState × Option String :=
      if st1.tokens.allNull then
        match fallbackEnd st1.lastRecords with
        | none => (st1, none)
        | some _ =>
          match firstError fbResults sourceOrder with
          | some e => (st1, some e)
          | none => (applyFallbackResults fbResults st1, none)
      else (st1, none)
    match afterFallback with
    | (st2, some e) => (st2, some e)
    | (st2, none) =>
      let res := revealNextBatch st2.buffers st2.lastRecords
      ({ st2 with buffers := res.1, lastRecords := res.2 }, none)

/-! ## Query cache (reportFetcher.js lines 37-45, 306-316, 637-658) -/

/-- The query parameters relevant to `makeCacheKey` and `fetchReport`:
the window bounds rendered as strings (`""` = absent, the destructuring
default), the continuation cursor `start_key` (`none` = absent) and the row
limit `maxRows` (`0` = absent, which is falsy in JS). -/
structure QueryParams where
  startDate : String
  endDate : String
  start_key : Option String
  maxRows : Nat
deriving DecidableEq, Repr

/-- `makeCacheKey` (reportFetcher.js lines 42-45): the key is
`report|tenant|startDate|endDate`; the destructuring pulls only `startDate`
and `endDate` out of `params`, so `start_key` and `maxRows` never reach the
key. -/
def makeCacheKey (report tenant : String) (p : QueryParams) : String :=
  report ++ "|" ++ tenant ++ "|" ++ p.startDate ++ "|" ++ p.endDate

/-- `CACHE_TTL = ms('5m')` (reportFetcher.js line 38), in milliseconds. -/
def CACHE_TTL : Int := 300000

/-- One entry of `reportCache`: `{ expires, data }`
(reportFetcher.js line 39). -/
structure CacheEntry (α : Type) where
  expires : Int
  data : List α
deriving DecidableEq, Repr

/-- `reportCache.get` on the association-list embedding of the `Map`. -/
def cacheGet {α : Type} (c : List (String × CacheEntry α)) (k : String) :
    Option (CacheEntry α) :=
  (c.find? (fun e => e.1 = k)).map (fun e => e.2)

/-- `reportCache.set`: overwrite any existing entry under the key. -/
def cacheSet {α : Type} (c : List (String × CacheEntry α)) (k : String)
    (e : CacheEntry α) : List (String × CacheEntry α) :=
  (k, e) :: c.filter (fun e' => e'.1 ≠ k)

/-- The two shapes `fetchReport` returns (reportFetcher.js lines 312-314 vs
639/653/658): a fresh cache hit returns the bare array of cached rows, a
miss returns the `{ rows, next }` object. -/
inductive FetchResult (α : Type) where
  | bare (rows : List α)
  | paged (rows : List α) (next : Option String)
deriving DecidableEq, Repr

/-- The cache discipline of `fetchReport` (reportFetcher.js lines 309-316
and 637-658).  `upstream` abstracts everything between the cache lookup and
the cache store: the retry/pagination loop plus the per-kind
post-processing, yielding the final row list and continuation cursor for
the given parameters.  `now` is `Date.now()`.  Returns the result, the
cache after the call, and whether the upstream was consulted.

A fresh entry under the window key short-circuits to `bare` — the lookup
happens before `start_key` is ever inspected, so it also serves fetches
issued with a cursor.  On a miss the produced rows are stored under the
window key unconditionally — also when the fetch carried a cursor. -/
def fetchReportCached {α : Type} (upstream : QueryParams → List α × Option String)
    (report tenant : String) (p : QueryParams) (now : Int)
    (cache : List (String × CacheEntry α)) :
    FetchResult α × List (String × CacheEntry α) × Bool :=
  let key := makeCacheKey report tenant p
  match cacheGet cache key with
  | some e =>
    if now < e.expires then (.bare e.data, cache, false)
    else
      let res := upstream p
      (.paged res.1 res.2, cacheSet cache key ⟨now + CACHE_TTL, res.1⟩, true)
  | none =>
    let res := upstream p
    (.paged res.1 res.2, cacheSet cache key ⟨now + CACHE_TTL, res.1⟩, true)

/-- The `next` token the HTTP handler reports (server.js lines 158-159:
`Array.isArray(result) ? null : result.next`): a bare array — the cache-hit
shape — always yields `null`. -/
def handlerNext {α : Type} : FetchResult α → Option String
  | .bare _ => none
  | .paged _ n => n

/-! ## The pagination loop inside one attempt (reportFetcher.js 458-513) -/

/-- One upstream page: the extracted `records` array and `next_start_key`
(`none` embeds an absent/null key, meaning "end of list"). -/
structure Page (α : Type) where
  rows : List α
  next : Option String
deriving DecidableEq, Repr

/-- The `while (true)` pagination loop of a single attempt (reportFetcher.js
lines 476-513), over the successive pages the upstream returns.  `out` and
`nextKey` are the accumulator and `nextStartKey` variables; `maxRows = 0`
embeds an absent (falsy) limit, in which case `remaining` is the page's own
length and nothing is capped.  The loop pushes at most `remaining` rows,
breaks as soon as the accumulator is non-empty, otherwise continues while
`next_start_key` is non-null. -/
def fetchPages {α : Type} (maxRows : Nat) :
    List (Page α) → List α → Option String → List α × Option String
  | [], out, nextKey => (out, nextKey)
  | pg :: rest, out, _ =>
    let nextKey := pg.next
    let remaining := if maxRows = 0 then pg.rows.length else maxRows - out.length
    let out2 := out ++ pg.rows.take remaining
    if 0 < out2.length then (out2, nextKey)
    else
      match nextKey with
      | none => (out2, nextKey)
      | some _ => fetchPages maxRows rest out2 nextKey

/-- One attempt's fetch, starting from the empty accumulator and a `null`
`nextStartKey` (reportFetcher.js lines 320-322). -/
def fetchAttempt {α : Type} (maxRows : Nat) (pages : List (Page α)) :
    List α × Option String :=
  fetchPages maxRows pages [] none

/-! ## Retry with exponential backoff (reportFetcher.js 23, 325, 514-520) -/

/-- `MAX_RETRIES` (reportFetcher.js line 23). -/
def MAX_RETRIES : Nat := 3

/-- The labelled `retry:` loop (reportFetcher.js line 325:
`for (let attempt = 0, delay = 1_000; attempt < MAX_RETRIES; attempt++,
delay *= 2)`), with the catch block of lines 515-519: on failure at the
last attempt the error is rethrown, otherwise the loop waits `delay`
milliseconds and retries.  `attempts n` is the settled outcome of the
`n`-th attempt; the returned list collects the backoff delays actually
waited, in order.  `fuel` is `MAX_RETRIES - attempt`, so the recursion is
structural; the `fuel = 0` case is unreachable. -/
def retryGo {α : Type} (attempts : Nat → Except String α) :
    Nat → Nat → Nat → List Nat → Except String α × List Nat
  | 0, _, _, waits => (.error "", waits.reverse)
  | fuel + 1, attempt, delay, waits =>
    match attempts attempt with
    | .ok a => (.ok a, waits.reverse)
    | .error e =>
      if attempt = MAX_RETRIES - 1 then (.error e, waits.reverse)
      else retryGo attempts fuel (attempt + 1) (delay * 2) (delay :: waits)

/-- The whole retry loop: up to `MAX_RETRIES` attempts, first delay
1000 ms, doubling each attempt. -/
def fetchWithRetries {α : Type} (attempts : Nat → Except String α) :
    Except String α × List Nat :=
  retryGo attempts MAX_RETRIES 0 1000 []

/-! ## Inbound-queue rows: leg dedup and the abandonment flag -/

/-- One `agent_history` entry, restricted to the fields the two
abandonment derivations consult.  `answered_time` is `none` when absent or
falsy and `some n` (with `n ≠ 0` meaning truthy) otherwise; an entry with
all four fields `none` embeds an empty object `{}`
(`Object.keys(h).length === 0`). -/
structure HistEntry where
  answered_time : Option Int
  agent_action : Option String
  connected : Option Bool
  event : Option String
deriving DecidableEq, Repr

/-- JS truthiness of an optional numeric field: present and non-zero. -/
def truthyInt : Option Int → Bool
  | none => false
  | some n => n != 0

/-- `Object.keys(h).length === 0` on the embedded entry. -/
def HistEntry.isEmptyObj (h : HistEntry) : Bool :=
  h.answered_time.isNone && h.agent_action.isNone
    && h.connected.isNone && h.event.isNone

/-- `needle` occurs as a contiguous run inside the second list —
`String.prototype.includes` on the underlying characters. -/
def containsList (needle : List Char) : List Char → Bool
  | [] => needle.isEmpty
  | c :: rest => needle.isPrefixOf (c :: rest) || containsList needle rest

/-- `s.includes(pat)` for strings. -/
def strIncludes (s pat : String) : Bool := containsList pat.toList s.toList

/-- `h?.agent_action?.includes("transfer")` (reportFetcher.js line 628). -/
def hasTransferAction (h : HistEntry) : Bool :=
  match h.agent_action with
  | none => false
  | some a => strIncludes a "transfer"

/-- One raw inbound-queue row, restricted to the fields consulted by the
`queueCalls` post-processing: `call_id` (`""` = missing, falsy),
`answered_time` and `agent_history` (`none` = null/undefined/non-array). -/
structure QRow where
  call_id : String
  answered_time : Option Int
  agent_history : Option (List HistEntry)
deriving DecidableEq, Repr

/-- Worker for the `queueCalls` leg dedup (reportFetcher.js lines 600-612):
keep a row with a missing `call_id` unconditionally, otherwise keep it only
when its `call_id` has not been seen. -/
def firstRowsGo (seen : List String) : List QRow → List QRow
  | [] => []
  | r :: rs =>
    if r.call_id = "" then r :: firstRowsGo seen rs
    else if seen.contains r.call_id then firstRowsGo seen rs
    else r :: firstRowsGo (r.call_id :: seen) rs

/-- The `firstRows` computation (reportFetcher.js lines 599-612): one row
per `call_id`, keeping the first-seen leg. -/
def firstRows (out : List QRow) : List QRow := firstRowsGo [] out

/-- The server-side abandonment derivation applied to every kept
inbound-queue row (reportFetcher.js lines 618-634): `"YES"` when the
history is missing/empty/all-empty-objects, or `answered_time` is falsy,
or the history is a non-empty array each of whose entries has a falsy
`answered_time` and no `"transfer"` in `agent_action`; `"NO"` otherwise. -/
def deriveAbandoned (r : QRow) : String :=
  let histMissing : Bool :=
    match r.agent_history with
    | none => true
    | some l => l.isEmpty || l.all HistEntry.isEmptyObj
  let histNoAnswer : Bool :=
    match r.agent_history with
    | none => false
    | some l =>
      !l.isEmpty && l.all (fun h => !truthyInt h.answered_time && !hasTransferAction h)
  if histMissing || !truthyInt r.answered_time || histNoAnswer then "YES" else "NO"

/-- The client-side abandonment derivation `computeAbandoned`
(script.js lines 642-660), applied by `normalizeRow` to inbound rows for
the displayed `Abandoned` column: `"YES"` when the history is not a
non-empty array; otherwise `"NO"` when some entry has a truthy `connected`,
`"YES"` when additionally no entry's `event` contains `"*7"`, else
`"NO"`. -/
def computeAbandoned (history : Option (List HistEntry)) : String :=
  match history with
  | none => "YES"
  | some l =>
    if l.isEmpty then "YES"
    else
      let connected := l.any (fun h => h.connected.getD false)
      let star7 := l.any (fun h => strIncludes (h.event.getD "") "*7")
      if connected then "NO"
      else if !connected && !star7 then "YES" else "NO"

/-- The specification's abandonment rule, in the spec's own words (§4.2):
abandoned exactly when the agent-history is empty, missing or all empty
objects, OR `answered_time` is falsy, OR every agent-history entry lacks
both an answer timestamp and a transfer action. -/
def specAbandonedYES (r : QRow) : Prop :=
  (r.agent_history = none ∨ r.agent_history = some []
    ∨ (∃ l, r.agent_history = some l ∧ ∀ h ∈ l, HistEntry.isEmptyObj h = true))
  ∨ truthyInt r.answered_time = false
  ∨ (∀ l, r.agent_history = some l →
      ∀ h ∈ l, truthyInt h.answered_time = false ∧ hasTransferAction h = false)

/-! ## Phone-number country heuristic (reportFetcher.js 73-296) -/

/-- The cleaning step (reportFetcher.js lines 80-85): keep digits and `+`,
then strip leading zeros unless the result starts with `+`. -/
def cleanedPhone (s : String) : List Char :=
  let kept := s.toList.filter (fun ch => ch.isDigit || ch == '+')
  if kept.head? = some '+' then kept else kept.dropWhile (fun ch => ch == '0')

/-- `extractCountryFromPhoneNumber` (reportFetcher.js lines 73-296).
`parseFallback` abstracts the final `parsePhoneNumber` branch (the
`libphonenumber-js` parse of lines 172-285 together with the catch block
returning `""`); it receives the cleaned characters after the
`+`-prefixing adjustments of lines 161-170.  All branches before it are
embedded literally, in source order. -/
def extractCountryFromPhoneNumber (parseFallback : List Char → String)
    (phoneNumber : String) : String :=
  if phoneNumber = "" then ""
  else
    let cn := cleanedPhone phoneNumber
    if cn.length ≤ 4 then ""
    else if "+971".toList.isPrefixOf cn || "971".toList.isPrefixOf cn then "UAE"
    else if "+20".toList.isPrefixOf cn || "20".toList.isPrefixOf cn then "Egypt"
    else if cn.length = 10 && ['9'].isPrefixOf cn then "India"
    else if cn.length = 10 && ['8'].isPrefixOf cn then "India"
    else if cn.length = 10 && ['7'].isPrefixOf cn then "India"
    else if cn.length = 10 && ['6'].isPrefixOf cn then "India"
    else if cn.length = 9 && ['5'].isPrefixOf cn then "UAE"
    else if cn.length = 8 && ['5'].isPrefixOf cn then "UAE"
    else if cn.length = 7 && ['5'].isPrefixOf cn then "UAE"
    else if cn.length = 10 && ['5'].isPrefixOf cn then "UAE"
    else if cn.length = 8
        && (['4'].isPrefixOf cn || ['2'].isPrefixOf cn || ['3'].isPrefixOf cn
            || ['6'].isPrefixOf cn || ['7'].isPrefixOf cn) then "UAE"
    else if (cn.length = 10 || cn.length = 11) && ['1'].isPrefixOf cn then "UK"
    else if "44".toList.isPrefixOf cn && 10 ≤ cn.length then "UK"
    else if cn.length = 10 && "10".toList.isPrefixOf cn then "Egypt"
    else
      let cn2 :=
        if "00".toList.isPrefixOf cn then '+' :: cn.drop 2
        else if ['0'].isPrefixOf cn && 10 < cn.length then '+' :: cn.drop 1
        else if !(cn.head? = some '+') && 10 < cn.length then '+' :: cn
        else cn
      parseFallback cn2

/-! # Theorems -/

/-- Claim C9: the country-derivation function returns "UAE" for the input
"0568334181" and for the input "971501234567", and returns the empty string
for every input whose cleaned digit string has length at most 4 (for
example "1234"), never classifying such a short number as a country.
Stated for every possible behaviour `fb` of the `libphonenumber-js`
fallback, which none of these inputs reaches. -/
theorem C9_country_heuristic :
    (∀ fb : List Char → String,
      extractCountryFromPhoneNumber fb "0568334181" = "UAE")
    ∧ (∀ fb : List Char → String,
      extractCountryFromPhoneNumber fb "971501234567" = "UAE")
    ∧ (∀ (fb : List Char → String) (s : String),
      (cleanedPhone s).length ≤ 4 → extractCountryFromPhoneNumber fb s = "") := by
  refine ⟨fun fb => rfl, fun fb => rfl, fun fb s h => ?_⟩
  unfold extractCountryFromPhoneNumber
  by_cases hs : s = ""
  · simp [hs]
  · simp [hs, h]

/-- Witness for C9 at the spec's own example "1234". -/
theorem C9_country_heuristic_witness :
    (cleanedPhone "1234").length ≤ 4
    ∧ extractCountryFromPhoneNumber (fun _ => "FALLBACK") "1234" = "" :=
  ⟨by decide, C9_country_heuristic.2.2 (fun _ => "FALLBACK") "1234" (by decide)⟩

/-- Claim C7: for every fetch the client makes at most 3 attempts (the
outcome depends only on the first three attempt results); after failures it
waits 1000 ms before the 2nd attempt and 2000 ms before the 3rd; two
failures followed by a success on the 3rd attempt return the successful
page unchanged (no data loss) with exactly those two backoff delays; three
failures raise the last error to the caller. -/
theorem C7_retry_backoff :
    (∀ {α : Type} (f : Nat → Except String α) (e1 e2 : String) (p : α),
      f 0 = .error e1 → f 1 = .error e2 → f 2 = .ok p →
      fetchWithRetries f = (.ok p, [1000, 2000]))
    ∧ (∀ {α : Type} (f : Nat → Except String α) (e1 e2 e3 : String),
      f 0 = .error e1 → f 1 = .error e2 → f 2 = .error e3 →
      fetchWithRetries f = (.error e3, [1000, 2000]))
    ∧ (∀ {α : Type} (f g : Nat → Except String α),
      f 0 = g 0 → f 1 = g 1 → f 2 = g 2 →
      fetchWithRetries f = fetchWithRetries g) := by
  refine ⟨?_, ?_, ?_⟩
  · intro α f e1 e2 p h0 h1 h2
    simp [fetchWithRetries, MAX_RETRIES, retryGo, h0, h1, h2]
  · intro α f e1 e2 e3 h0 h1 h2
    simp [fetchWithRetries, MAX_RETRIES, retryGo, h0, h1, h2]
  · intro α f g h0 h1 h2
    simp only [fetchWithRetries, MAX_RETRIES, retryGo, h0, h1, h2]

/-- Witness for C7: a source that fails twice and succeeds on the 3rd
attempt yields the successful page after waits of 1000 ms and 2000 ms. -/
theorem C7_retry_backoff_witness :
    fetchWithRetries
        (fun n => if n = 0 then (.error "e0" : Except String Nat)
                  else if n = 1 then .error "e1" else .ok 42)
      = (.ok 42, [1000, 2000]) :=
  C7_retry_backoff.1 _ "e0" "e1" 42 rfl rfl rfl

/-- Helper for C8: what `firstRowsGo` leaves of the rows carrying one fixed
non-empty `call_id` — nothing if that id was already seen, otherwise
exactly the first-seen such row. -/
theorem firstRowsGo_filter (id : String) (hid : id ≠ "") :
    ∀ (l : List QRow) (seen : List String),
      (firstRowsGo seen l).filter (fun r => r.call_id = id)
        = if id ∈ seen then []
          else (l.filter (fun r => r.call_id = id)).take 1 := by
  intro l
  induction l with
  | nil => intro seen; by_cases h : id ∈ seen <;> simp [firstRowsGo, h]
  | cons r rs ih =>
    intro seen
    by_cases h1 : r.call_id = ""
    · have hne : r.call_id ≠ id := by rw [h1]; exact Ne.symm hid
      simp only [firstRowsGo, if_pos h1, List.filter_cons]
      simp [hne, ih seen]
    · by_cases h2 : r.call_id ∈ seen
      · have hc : seen.contains r.call_id = true := by simpa using h2
        simp only [firstRowsGo, if_neg h1, hc, if_true]
        rw [ih seen]
        by_cases h3 : r.call_id = id
        · subst h3
          simp [h2]
        · simp [List.filter_cons, h3]
      · have hc : seen.contains r.call_id = false := by simpa using h2
        simp only [firstRowsGo, if_neg h1, hc, Bool.false_eq_true, if_false,
          List.filter_cons]
        by_cases h3 : r.call_id = id
        · subst h3
          have hmem2 : r.call_id ∈ r.call_id :: seen := List.mem_cons_self _ _
          simp [ih, hmem2, h2, List.filter_cons]
        · have hmeq : (id ∈ r.call_id :: seen) ↔ (id ∈ seen) := by
            constructor
            · intro h
              rcases List.mem_cons.mp h with h | h
              · exact absurd h.symm h3
              · exact h
            · exact fun h => List.mem_cons_of_mem _ h
          simp [h3, ih, hmeq, List.filter_cons]

/-- Claim C8: for every inbound-queue result list and every non-empty call
identifier, the kept rows with that identifier are exactly the first-seen
such row (all later legs are dropped); in particular N ≥ 1 raw rows sharing
one identifier yield exactly 1 kept row. -/
theorem C8_inbound_leg_dedup (l : List QRow) (id : String) (hid : id ≠ "") :
    (firstRows l).filter (fun r => r.call_id = id)
      = (l.filter (fun r => r.call_id = id)).take 1
    ∧ (1 ≤ (l.filter (fun r => r.call_id = id)).length →
        ((firstRows l).filter (fun r => r.call_id = id)).length = 1) := by
  have h := firstRowsGo_filter id hid l []
  simp only [List.not_mem_nil, if_false] at h
  refine ⟨h, fun hn => ?_⟩
  rw [firstRows] at *
  rw [h, List.length_take]
  omega

/-- Witness for C8: three legs of call "a" (interleaved with another call
and an id-less row) collapse to the single first-seen leg. -/
theorem C8_inbound_leg_dedup_witness :
    ("a" : String) ≠ ""
    ∧ (firstRows
          [⟨"a", none, none⟩, ⟨"b", none, none⟩, ⟨"a", some 1, none⟩,
           ⟨"", none, none⟩, ⟨"a", some 2, none⟩]).filter
            (fun r => r.call_id = "a")
        = [⟨"a", none, none⟩] :=
  ⟨by decide,
    by
      have h := (C8_inbound_leg_dedup
        [⟨"a", none, none⟩, ⟨"b", none, none⟩, ⟨"a", some 1, none⟩,
         ⟨"", none, none⟩, ⟨"a", some 2, none⟩] "a" (by decide)).1
      rw [h]
      rfl⟩

/-- Helper for C5: the pagination loop never grows the accumulator past a
non-zero `maxRows`. -/
theorem fetchPages_length_le {α : Type} (maxRows : Nat) (hm : maxRows ≠ 0) :
    ∀ (pages : List (Page α)) (out : List α) (nk : Option String),
      out.length ≤ maxRows → (fetchPages maxRows pages out nk).1.length ≤ maxRows := by
  intro pages
  induction pages with
  | nil => intro out nk h; simpa [fetchPages] using h
  | cons pg rest ih =>
    intro out nk h
    simp only [fetchPages, hm, if_false]
    have h2 : (out ++ pg.rows.take (maxRows - out.length)).length ≤ maxRows := by
      rw [List.length_append, List.length_take]
      omega
    by_cases hpos : 0 < (out ++ pg.rows.take (maxRows - out.length)).length
    · simp only [hpos, if_pos]
      exact h2
    · simp only [hpos, if_false]
      cases pg.next with
      | none => exact h2
      | some k => exact ih _ _ h2

/-- Helper for C5: the loop walks through empty pages that carry a cursor,
then returns the first page with rows, capped, together with that page's
`next_start_key`; later pages are never requested. -/
theorem fetchPages_through_empties {α : Type} (maxRows : Nat) :
    ∀ (empties : List (Page α)) (p : Page α) (rest : List (Page α)) (nk : Option String),
      (∀ q ∈ empties, q.rows = [] ∧ q.next.isSome) → p.rows ≠ [] →
      fetchPages maxRows (empties ++ p :: rest) [] nk
        = (p.rows.take (if maxRows = 0 then p.rows.length else maxRows), p.next) := by
  intro empties
  induction empties with
  | nil =>
    intro p rest nk _ hp
    have hlen : 0 < p.rows.length := List.length_pos.mpr hp
    have hpos : 0 < (([] : List α)
        ++ p.rows.take (if maxRows = 0 then p.rows.length else maxRows - 0)).length := by
      rw [List.nil_append, List.length_take]
      by_cases hm : maxRows = 0 <;> simp [hm] <;> omega
    simp only [List.nil_append, fetchPages, List.length_nil, Nat.sub_zero] at hpos ⊢
    simp only [hpos, if_pos]
  | cons q empties ih =>
    intro p rest nk hq hp
    obtain ⟨hq1, hq2⟩ := hq q (List.mem_cons_self _ _)
    obtain ⟨k, hk⟩ := Option.isSome_iff_exists.mp hq2
    have hrest : ∀ q' ∈ empties, q'.rows = [] ∧ q'.next.isSome :=
      fun q' h => hq q' (List.mem_cons_of_mem _ h)
    simp only [List.cons_append, fetchPages, hq1, List.take_nil, List.append_nil,
      List.length_nil, Nat.lt_irrefl, if_false, hk]
    exact ih p rest (some k) hrest hp

/-- Claim C5: the fetch client's per-attempt pagination loop caps the
returned row list at the requested limit (a zero/absent limit means no
cap); it pages past empty pages only while it has zero rows and the cursor
is non-null, returns as soon as at least one row is accumulated (excess
beyond the limit discarded, later pages never fetched), and the returned
continuation cursor is the `next_start_key` of the last page fetched. -/
theorem C5_fetch_client_pagination :
    (∀ {α : Type} (maxRows : Nat) (pages : List (Page α)), maxRows ≠ 0 →
      (fetchAttempt maxRows pages).1.length ≤ maxRows)
    ∧ (∀ {α : Type} (maxRows : Nat) (empties : List (Page α)) (p : Page α)
        (rest : List (Page α)),
      (∀ q ∈ empties, q.rows = [] ∧ q.next.isSome) → p.rows ≠ [] →
      fetchAttempt maxRows (empties ++ p :: rest)
        = (p.rows.take (if maxRows = 0 then p.rows.length else maxRows), p.next)) := by
  constructor
  · intro α maxRows pages hm
    exact fetchPages_length_le maxRows hm pages [] none (by simp)
  · intro α maxRows empties p rest hq hp
    exact fetchPages_through_empties maxRows empties p rest none hq hp

/-- Witness for C5: with a limit of 3, two empty cursor-carrying pages
followed by a five-row page yield exactly the first three rows of that page
and its cursor; the trailing page is never consulted. -/
theorem C5_fetch_client_pagination_witness :
    fetchAttempt 3
        [⟨[], some "k1"⟩, ⟨[], some "k2"⟩, ⟨[1, 2, 3, 4, 5], some "k3"⟩, ⟨[9], none⟩]
      = ([1, 2, 3], some "k3") := by
  have h := C5_fetch_client_pagination.2 3
    [⟨[], some "k1"⟩, ⟨[], some "k2"⟩] (⟨[1, 2, 3, 4, 5], some "k3"⟩ : Page Nat)
    [⟨[9], none⟩] (by decide) (by decide)
  simpa using h

/-- Helper: reading back the key just stored. -/
theorem cacheGet_cacheSet {α : Type} (c : List (String × CacheEntry α))
    (k : String) (e : CacheEntry α) : cacheGet (cacheSet c k e) k = some e := by
  simp [cacheGet, cacheSet, List.find?_cons]

/-- Counterexample to claim C2: a fetch issued WITH a continuation cursor
(`start_key = some "CUR"`) is stored into the cache under the window key,
and a later fetch issued WITH a cursor is served the cached rows without an
upstream call — contradicting "a fetch issued with a continuation cursor is
neither stored into nor served from the cache". -/
theorem C2_cache_counterexample :
    (fetchReportCached (fun _ => ([7, 8], some "NXT")) "cdrs" "t"
        ⟨"1", "2", some "CUR", 5⟩ 0 []).2.1
      = [("cdrs|t|1|2", ⟨300000, [7, 8]⟩)]
    ∧ fetchReportCached (fun _ => ([9], none)) "cdrs" "t"
        ⟨"1", "2", some "CUR2", 5⟩ 1 [("cdrs|t|1|2", ⟨300000, [7, 8]⟩)]
      = (.bare [7, 8], [("cdrs|t|1|2", ⟨300000, [7, 8]⟩)], false) := by
  constructor <;> rfl

/-- Claim C2 as amended: the cache key is exactly (report kind, tenant,
window start, window end) — the continuation cursor and the row limit are
excluded — and re-issuing any query whose window key matches a fresh entry
returns the identical stored rows with no upstream call; however the
results of EVERY fetch, first-page or cursor-continuation alike, are stored
under the window key, and any fetch (with or without a cursor) whose window
key has a fresh entry is served from the cache. -/
theorem C2_cache_key_and_idempotence :
    (∀ (report tenant : String) (p : QueryParams) (c : Option String) (m : Nat),
      makeCacheKey report tenant { p with start_key := c, maxRows := m }
        = makeCacheKey report tenant p)
    ∧ (∀ (up1 up2 : QueryParams → List Nat × Option String) (report tenant : String)
        (p p2 : QueryParams) (t0 t1 : Int) (cache : List (String × CacheEntry Nat)),
      cacheGet cache (makeCacheKey report tenant p) = none →
      makeCacheKey report tenant p2 = makeCacheKey report tenant p →
      t1 < t0 + CACHE_TTL →
      (fetchReportCached up1 report tenant p t0 cache).1
          = .paged (up1 p).1 (up1 p).2
        ∧ cacheGet (fetchReportCached up1 report tenant p t0 cache).2.1
            (makeCacheKey report tenant p) = some ⟨t0 + CACHE_TTL, (up1 p).1⟩
        ∧ fetchReportCached up2 report tenant p2 t1
            (fetchReportCached up1 report tenant p t0 cache).2.1
          = (.bare (up1 p).1,
             (fetchReportCached up1 report tenant p t0 cache).2.1, false)) := by
  constructor
  · intro report tenant p c m
    rfl
  · intro up1 up2 report tenant p p2 t0 t1 cache hmiss hkey ht
    have hfirst : fetchReportCached up1 report tenant p t0 cache
        = (.paged (up1 p).1 (up1 p).2,
           cacheSet cache (makeCacheKey report tenant p)
             ⟨t0 + CACHE_TTL, (up1 p).1⟩, true) := by
      simp [fetchReportCached, hmiss]
    refine ⟨by rw [hfirst], ?_, ?_⟩
    · rw [hfirst]
      exact cacheGet_cacheSet _ _ _
    · rw [hfirst]
      simp [fetchReportCached, hkey, cacheGet_cacheSet, ht]

/-- Witness for C2: a first-page miss on an empty cache followed by a
cursor-bearing repeat of the same window inside the TTL. -/
theorem C2_cache_key_and_idempotence_witness :
    cacheGet ([] : List (String × CacheEntry Nat)) (makeCacheKey "cdrs" "t" ⟨"1", "2", none, 0⟩) = none
    ∧ makeCacheKey "cdrs" "t" ⟨"1", "2", some "C", 3⟩
        = makeCacheKey "cdrs" "t" ⟨"1", "2", none, 0⟩
    ∧ (100 : Int) < 0 + CACHE_TTL
    ∧ fetchReportCached (fun _ => ([9], none)) "cdrs" "t" ⟨"1", "2", some "C", 3⟩ 100
        (fetchReportCached (fun _ => ([7], some "n")) "cdrs" "t"
          ⟨"1", "2", none, 0⟩ 0 []).2.1
      = (.bare [7],
         (fetchReportCached (fun _ => ([7], some "n")) "cdrs" "t"
           ⟨"1", "2", none, 0⟩ 0 []).2.1, false) :=
  ⟨rfl, rfl, by decide,
    (C2_cache_key_and_idempotence.2 (fun _ => ([7], some "n")) (fun _ => ([9], none))
      "cdrs" "t" ⟨"1", "2", none, 0⟩ ⟨"1", "2", some "C", 3⟩ 0 100 []
      rfl rfl (by decide)).2.2⟩

/-- Claim C10: a fresh cache hit makes `fetchReport` return a bare array
instead of the `{rows, next}` object, so the HTTP handler reports
`next = null` for any repeated identical query within the TTL — even when
the original fetch produced a non-null continuation cursor. -/
theorem C10_cache_hit_drops_next (up : QueryParams → List Nat × Option String)
    (report tenant : String) (p : QueryParams) (t0 t1 : Int)
    (cache : List (String × CacheEntry Nat)) (cur : String)
    (hmiss : cacheGet cache (makeCacheKey report tenant p) = none)
    (hup : (up p).2 = some cur)
    (ht : t1 < t0 + CACHE_TTL) :
    handlerNext (fetchReportCached up report tenant p t0 cache).1 = some cur
    ∧ (fetchReportCached up report tenant p t1
        (fetchReportCached up report tenant p t0 cache).2.1).1 = .bare (up p).1
    ∧ handlerNext (fetchReportCached up report tenant p t1
        (fetchReportCached up report tenant p t0 cache).2.1).1 = none := by
  have hfirst : fetchReportCached up report tenant p t0 cache
      = (.paged (up p).1 (up p).2,
         cacheSet cache (makeCacheKey report tenant p)
           ⟨t0 + CACHE_TTL, (up p).1⟩, true) := by
    simp [fetchReportCached, hmiss]
  have hsecond : (fetchReportCached up report tenant p t1
      (fetchReportCached up report tenant p t0 cache).2.1).1 = .bare (up p).1 := by
    rw [hfirst]
    simp [fetchReportCached, cacheGet_cacheSet, ht]
  refine ⟨?_, hsecond, ?_⟩
  · rw [hfirst]
    simp [handlerNext, hup]
  · rw [hsecond]
    rfl

/-- Witness for C10: the first fetch of a window ends with cursor "n",
yet the in-TTL repeat reports no continuation cursor at all. -/
theorem C10_cache_hit_drops_next_witness :
    handlerNext (fetchReportCached (fun _ => ([7], some "n")) "cdrs" "t"
        ⟨"1", "2", none, 0⟩ 0 []).1 = some "n"
    ∧ handlerNext (fetchReportCached (fun _ => ([7], some "n")) "cdrs" "t"
        ⟨"1", "2", none, 0⟩ 100
        (fetchReportCached (fun _ => ([7], some "n")) "cdrs" "t"
          ⟨"1", "2", none, 0⟩ 0 []).2.1).1 = none :=
  have h := C10_cache_hit_drops_next (fun _ => ([7], some "n")) "cdrs" "t"
    ⟨"1", "2", none, 0⟩ 0 100 [] "n" rfl rfl (by decide)
  ⟨h.1, h.2.2⟩

/-- Helper: the two-valued flag equals "YES" exactly when its condition
holds. -/
theorem iteYesNo_eq_yes (b : Bool) :
    ((if b then "YES" else "NO") = "YES") ↔ b = true := by
  cases b <;> simp

/-- Counterexample to claim C3.  The claim requires one derived flag that
both follows the stated rule and returns "NO" for a record whose single
agent-history entry is `{connected: true}`.  No function in the code does
both: the server-side derivation (reportFetcher.js, the one that writes the
`abandoned` field and follows the stated rule) returns "YES" on that record
— the entry lacks an answer timestamp and a transfer action — and the
client-side display derivation `computeAbandoned` (script.js) returns "YES"
on a history whose single entry carries an answer timestamp, although the
stated rule demands "NO" there. -/
theorem C3_abandonment_counterexample :
    deriveAbandoned ⟨"c1", some 1, some [⟨none, none, some true, none⟩]⟩ = "YES"
    ∧ computeAbandoned (some [⟨some 5, none, none, none⟩]) = "YES" := by
  constructor <;> rfl

/-- Claim C3 as amended: the server-side derived abandonment flag equals
"YES" exactly when the agent-history is empty, missing or all empty
objects, OR `answered_time` is falsy, OR every agent-history entry lacks
both an answer timestamp and a transfer action, and equals "NO" otherwise;
a record with empty agent-history and no answered_time yields "YES"; a
record with one agent-history entry containing `connected: true` also
yields "YES" from this derivation (the entry lacks an answer timestamp and
a transfer action) — only the separate client-side display derivation
`computeAbandoned`, which ignores `answered_time` and checks
`connected`/`*7` instead, returns "NO" for it. -/
theorem C3_abandonment_amended (r : QRow) :
    (deriveAbandoned r = "YES" ↔ specAbandonedYES r)
    ∧ (deriveAbandoned r = "YES" ∨ deriveAbandoned r = "NO")
    ∧ deriveAbandoned ⟨"e1", none, some []⟩ = "YES"
    ∧ deriveAbandoned ⟨"c1", some 1, some [⟨none, none, some true, none⟩]⟩ = "YES"
    ∧ computeAbandoned (some [⟨none, none, some true, none⟩]) = "NO" := by
  refine ⟨?_, ?_, rfl, rfl, rfl⟩
  · cases hh : r.agent_history with
    | none =>
      simp [deriveAbandoned, specAbandonedYES, hh]
    | some l =>
      simp only [deriveAbandoned, hh]
      rw [iteYesNo_eq_yes]
      simp only [specAbandonedYES, hh, Option.some.injEq, reduceCtorEq, false_or,
        Bool.or_eq_true, Bool.and_eq_true, Bool.not_eq_true', List.all_eq_true,
        List.isEmpty_iff, List.isEmpty_eq_false, exists_eq_left', forall_eq']
      tauto
  · cases hh : r.agent_history with
    | none => simp [deriveAbandoned, hh]
    | some l =>
      simp only [deriveAbandoned, hh]
      split <;> simp

/-- Claim C6: whenever every source's continuation cursor is null and the
consumer requests another batch, the round issues no cursor continuations
and exactly one fallback round: taking the oldest event time `o` among the
currently revealed records (here an honest millisecond epoch, so the
seconds-heuristic rescale is the identity), the request list is exactly one
fresh, cursor-less, first-page fetch per source — all four sources
simultaneously — with the window end set to `o - 1000`, i.e. 1 second
before the oldest revealed record's event time. -/
theorem C6_fallback_window (chunkNext : Source → Except String (Option String))
    (last : List NRec) (o : Int)
    (ho : oldestEpoch last = some o)
    (hbig : 1000000000000 ≤ o) :
    roundRequests ⟨none, none, none, none⟩ chunkNext last
      = [⟨.inb, none, some (o - 1000)⟩, ⟨.out, none, some (o - 1000)⟩,
         ⟨.camp, none, some (o - 1000)⟩, ⟨.cdr, none, some (o - 1000)⟩] := by
  have h0 : ¬(o = 0) := by omega
  have h1 : ¬(o < 1000000000000) := by omega
  have hpost : postTokens ⟨none, none, none, none⟩ chunkNext
      = ⟨none, none, none, none⟩ := rfl
  have hchunk : chunkRequests ⟨none, none, none, none⟩ = [] := rfl
  simp [roundRequests, hpost, hchunk, Tokens.allNull, fallbackEnd, ho, h0, h1]

/-- Witness for C6: with all four cursors null and two revealed records
whose oldest event time is 1600000000000 ms, the round is exactly the four
cursor-less fallback fetches ending at 1599999999000 ms. -/
theorem C6_fallback_window_witness :
    oldestEpoch [⟨"a", some 1700000000000⟩, ⟨"b", some 1600000000000⟩]
        = some 1600000000000
    ∧ roundRequests ⟨none, none, none, none⟩ (fun _ => .ok none)
        [⟨"a", some 1700000000000⟩, ⟨"b", some 1600000000000⟩]
      = [⟨.inb, none, some 1599999999000⟩, ⟨.out, none, some 1599999999000⟩,
         ⟨.camp, none, some 1599999999000⟩, ⟨.cdr, none, some 1599999999000⟩] :=
  ⟨rfl,
    by
      have h := C6_fallback_window (fun _ => .ok none)
        [⟨"a", some 1700000000000⟩, ⟨"b", some 1600000000000⟩]
        1600000000000 rfl (by decide)
      simpa using h⟩

/-- A concrete engine state for C1: inbound and outbound hold live cursors,
nothing has been revealed yet. -/
def c1State : EngineState :=
  ⟨⟨some "tokA", some "tokB", none, none⟩, ⟨[], [], [], []⟩, []⟩

/-- Concrete chunk outcomes for C1: the inbound fetch fails after
exhausting retries while the outbound fetch succeeds with one record. -/
def c1Chunk : Source → Except String FetchPage
  | .inb => .error "boom"
  | .out => .ok ⟨[⟨"r1", some 1700000000000⟩], none⟩
  | .camp => .ok ⟨[], none⟩
  | .cdr => .ok ⟨[], none⟩

def c1Fb : Source → Except String (List NRec) := fun _ => .ok []

/-- Counterexample to claim C1: in a batch-load round where the inbound
source fails after retries and the outbound source succeeds with record
"r1", `loadNextChunks` throws ("boom" propagates out of
`await Promise.all`), the revealed list stays empty — record "r1" is NOT
revealed for that batch, it merely sits in the outbound buffer — and no
warning annotation exists, contradicting "the engine still reveals the
succeeding sources' records for that batch". -/
theorem C1_partial_failure_counterexample :
    (loadNextChunksRun c1State c1Chunk c1Fb).2 = some "boom"
    ∧ (loadNextChunksRun c1State c1Chunk c1Fb).1.lastRecords = []
    ∧ (loadNextChunksRun c1State c1Chunk c1Fb).1.buffers.out
        = [⟨"r1", some 1700000000000⟩] := by
  refine ⟨rfl, rfl, rfl⟩

/-- Helper for C1: the fulfilled `.then` handlers only touch buffers and
tokens, never the revealed list. -/
theorem applyChunkResults_lastRecords
    (chunkResults : Source → Except String FetchPage) :
    ∀ (l : List Source) (st : EngineState),
      (applyChunkResults chunkResults l st).lastRecords = st.lastRecords := by
  intro l
  induction l with
  | nil => intro st; rfl
  | cons k rest ih =>
    intro st
    rw [applyChunkResults, List.foldl_cons]
    cases chunkResults k with
    | ok page => exact ih _
    | error e => exact ih _

/-- Claim C1 as amended: whenever any fetched source's chunk fetch fails
after exhausting retries, the whole batch-load round throws — the error
propagates out of `await Promise.all` — and the revealed sequence is left
exactly as it was: no record from any succeeding source is revealed for
that batch (succeeding sources' rows only reach their read-ahead buffers),
and the failure is surfaced as a thrown error rather than a warning
annotation. -/
theorem C1_partial_failure_blocks_batch (st : EngineState)
    (chunkResults : Source → Except String FetchPage)
    (fbResults : Source → Except String (List NRec)) (k : Source) (e : String)
    (hk : k ∈ fetchedSources st.tokens) (he : chunkResults k = .error e) :
    (loadNextChunksRun st chunkResults fbResults).2.isSome = true
    ∧ (loadNextChunksRun st chunkResults fbResults).1.lastRecords
        = st.lastRecords := by
  have hfind : firstError chunkResults (fetchedSources st.tokens) ≠ none := by
    intro hnone
    rw [firstError, List.findSome?_eq_none_iff] at hnone
    have := hnone k hk
    rw [he] at this
    exact Option.some_ne_none e this
  obtain ⟨e', he'⟩ := Option.ne_none_iff_exists'.mp hfind
  simp only [loadNextChunksRun, he']
  exact ⟨rfl, applyChunkResults_lastRecords chunkResults _ st⟩

/-- Witness for C1's amended theorem at the concrete failing round. -/
theorem C1_partial_failure_blocks_batch_witness :
    Source.inb ∈ fetchedSources c1State.tokens
    ∧ c1Chunk .inb = .error "boom"
    ∧ (loadNextChunksRun c1State c1Chunk c1Fb).2.isSome = true
    ∧ (loadNextChunksRun c1State c1Chunk c1Fb).1.lastRecords
        = c1State.lastRecords :=
  have h := C1_partial_failure_blocks_batch c1State c1Chunk c1Fb .inb "boom"
    (by decide) rfl
  ⟨by decide, rfl, h.1, h.2⟩

/-- Helper: reading one buffer after writing another. -/
theorem Buffers.get_set (b : Buffers) (k j : Source) (l : List NRec) :
    Buffers.get (Buffers.set b k l) j = if j = k then l else Buffers.get b j := by
  cases k <;> cases j <;> simp [Buffers.get, Buffers.set]

/-- Helper: `dedupRecords` only ever keeps input records. -/
theorem dedupGo_subset (r : NRec) :
    ∀ (l : List NRec) (seen : List String), r ∈ dedupGo seen l → r ∈ l := by
  intro l
  induction l with
  | nil => intro seen h; simp [dedupGo] at h
  | cons x xs ih =>
    intro seen h
    simp only [dedupGo] at h
    by_cases h1 : x.callId = ""
    · rw [if_pos h1] at h
      rcases List.mem_cons.mp h with h | h
      · exact h ▸ List.mem_cons_self _ _
      · exact List.mem_cons_of_mem _ (ih seen h)
    · rw [if_neg h1] at h
      by_cases h2 : seen.contains x.callId
      · rw [if_pos h2] at h
        exact List.mem_cons_of_mem _ (ih seen h)
      · rw [if_neg h2] at h
        rcases List.mem_cons.mp h with h | h
        · exact h ▸ List.mem_cons_self _ _
        · exact List.mem_cons_of_mem _ (ih _ h)

/-- Helper: on a list whose records all carry a non-empty id,
`dedupRecords`' worker yields pairwise-distinct ids, none of them already
seen. -/
theorem dedupGo_nodup :
    ∀ (l : List NRec) (seen : List String), (∀ x ∈ l, x.callId ≠ "") →
      ((dedupGo seen l).map NRec.callId).Nodup
      ∧ ∀ x ∈ dedupGo seen l, x.callId ∉ seen := by
  intro l
  induction l with
  | nil =>
    intro seen _
    refine ⟨by simp [dedupGo], fun x hx => ?_⟩
    simp [dedupGo] at hx
  | cons x xs ih =>
    intro seen hids
    have hx0 : x.callId ≠ "" := hids x (List.mem_cons_self _ _)
    have hrest : ∀ y ∈ xs, y.callId ≠ "" :=
      fun y hy => hids y (List.mem_cons_of_mem _ hy)
    simp only [dedupGo, if_neg hx0]
    by_cases h2 : seen.contains x.callId
    · rw [if_pos h2]
      exact ih seen hrest
    · rw [if_neg h2]
      have hxseen : x.callId ∉ seen := by simpa using h2
      obtain ⟨ihnd, ihseen⟩ := ih (x.callId :: seen) hrest
      constructor
      · rw [List.map_cons, List.nodup_cons]
        refine ⟨fun hmem => ?_, ihnd⟩
        obtain ⟨y, hy, hyid⟩ := List.mem_map.mp hmem
        have hnot := ihseen y hy
        rw [hyid] at hnot
        exact hnot (List.mem_cons_self _ _)
      · intro y hy
        rcases List.mem_cons.mp hy with h | h
        · exact h ▸ hxseen
        · exact fun hc => (ihseen y h) (List.mem_cons_of_mem _ hc)

/-- Helper: the reveal loop keeps the revealed list's ids pairwise distinct
whenever every buffered and already-revealed record carries a non-empty
id. -/
theorem revealLoop_nodup (psize startLen : Nat) :
    ∀ (fuel : Nat) (b : Buffers) (last : List NRec),
      (∀ k, ∀ r ∈ Buffers.get b k, r.callId ≠ "") →
      (∀ r ∈ last, r.callId ≠ "") →
      (last.map NRec.callId).Nodup →
      ((revealLoop psize startLen fuel b last).2.map NRec.callId).Nodup := by
  intro fuel
  induction fuel with
  | zero => intro b last _ _ hnd; exact hnd
  | succ fuel ih =>
    intro b last hB hL hnd
    rw [revealLoop]
    by_cases hg : last.length - startLen < psize
    · rw [if_pos hg]
      split
      · exact hnd
      next k hp =>
        split
        · exact hnd
        next r rest hbk =>
          have hall : ∀ x ∈ last ++ [r], x.callId ≠ "" := by
            intro x hx
            rcases List.mem_append.mp hx with h | h
            · exact hL x h
            · have hxr : x = r := by simpa using h
              exact hxr ▸ hB k r (by rw [hbk]; exact List.mem_cons_self _ _)
          apply ih
          · intro j x hx
            rw [Buffers.get_set] at hx
            by_cases hjk : j = k
            · rw [if_pos hjk] at hx
              exact hB k x (by rw [hbk]; exact List.mem_cons_of_mem _ hx)
            · rw [if_neg hjk] at hx
              exact hB j x hx
          · exact fun x hx => hall x (dedupGo_subset x _ [] hx)
          · exact (dedupGo_nodup (last ++ [r]) [] hall).1
    · rw [if_neg hg]
      exact hnd

/-- Claim C4: after every reveal step the revealed sequence is sorted
non-increasing by event time, and — provided every buffered and
already-revealed record carries a non-empty unique identifier, the data
model's invariant — no identifier appears twice in it (the id list is
pairwise distinct), even when fallback-window re-queries have refilled the
buffers with overlapping ranges. -/
theorem C4_reveal_sorted_nodup (b : Buffers) (last : List NRec)
    (hids : (∀ r ∈ b.inb, r.callId ≠ "") ∧ (∀ r ∈ b.out, r.callId ≠ "")
      ∧ (∀ r ∈ b.camp, r.callId ≠ "") ∧ (∀ r ∈ b.cdr, r.callId ≠ "")
      ∧ (∀ r ∈ last, r.callId ≠ ""))
    (hnd : (last.map NRec.callId).Nodup) :
    List.Pairwise (fun a c => toEpoch c ≤ toEpoch a) (revealNextBatch b last).2
    ∧ ((revealNextBatch b last).2.map NRec.callId).Nodup := by
  constructor
  · exact List.sorted_insertionSort descByEpoch _
  · have hB : ∀ k, ∀ r ∈ Buffers.get b k, r.callId ≠ "" := by
      intro k
      cases k
      · exact hids.1
      · exact hids.2.1
      · exact hids.2.2.1
      · exact hids.2.2.2.1
    have hloop := revealLoop_nodup PAGE_SIZE last.length (Buffers.totalLen b)
      b last hB hids.2.2.2.2 hnd
    have hperm : (revealNextBatch b last).2.Perm
        (revealLoop PAGE_SIZE last.length (Buffers.totalLen b) b last).2 :=
      List.perm_insertionSort descByEpoch _
    exact (hperm.map NRec.callId).nodup_iff.mpr hloop

/-- Witness for C4: a reveal over buffers containing a cross-source
duplicate of record "a" yields a sorted, duplicate-free revealed list. -/
theorem C4_reveal_sorted_nodup_witness :
    List.Pairwise (fun a c => toEpoch c ≤ toEpoch a)
      (revealNextBatch
        ⟨[⟨"a", some 2000000000000⟩, ⟨"b", some 1000000000000⟩],
         [⟨"a", some 1500000000000⟩], [], []⟩ []).2
    ∧ ((revealNextBatch
        ⟨[⟨"a", some 2000000000000⟩, ⟨"b", some 1000000000000⟩],
         [⟨"a", some 1500000000000⟩], [], []⟩ []).2.map NRec.callId).Nodup :=
  C4_reveal_sorted_nodup
    ⟨[⟨"a", some 2000000000000⟩, ⟨"b", some 1000000000000⟩],
     [⟨"a", some 1500000000000⟩], [], []⟩ []
    (by refine ⟨?_, ?_, ?_, ?_, ?_⟩ <;> decide) (by decide)

end SPC
